import Mathlib

/-!
Shallow embedding of `bsl::safe_integral` (include/bsl/safe_integral.hpp).

A C++ fixed-width integral type `T` is modelled by `Bsl.IntTy`, its range
`[lo, hi]`.  Values of `T` are modelled as `Int`; wrap-around (the value the
GNU `__builtin_*_overflow` intrinsics store on overflow) is explicit via
`Bsl.wrap`.  `bsl::safe_integral<T>` is the structure `Bsl.safe_integral`
holding `m_val : Int` and `m_error : Bool`, mirroring the two data members of
the C++ class.  Member functions and free operators are translated one for
one from the source; in-place mutating operators become functions from the
old instance to the new one.
-/

namespace Bsl

/-- The range of a C++ fixed-width integral type: `lo = numeric_limits::min()`,
`hi = numeric_limits::max()`.  Every instantiation used by the BSL has
`lo ≤ 0` and `1 ≤ hi`. -/
structure IntTy where
  lo : Int
  hi : Int
  lo_nonpos : lo ≤ 0
  one_le_hi : 1 ≤ hi

/-- Number of representable values, `hi - lo + 1`. -/
def IntTy.span (ty : IntTy) : Int := ty.hi - ty.lo + 1

/-- `bsl::is_signed<T>::value`: the C++ signed types are exactly those whose
minimum is negative. -/
def IntTy.isSigned (ty : IntTy) : Bool := decide (ty.lo < 0)

/-- `v` is representable in `T`. -/
def IntTy.inRange (ty : IntTy) (v : Int) : Prop := ty.lo ≤ v ∧ v ≤ ty.hi

/-- `bsl::int8`. -/
def i8 : IntTy := ⟨-128, 127, by norm_num, by norm_num⟩

/-- `bsl::int32`. -/
def i32 : IntTy := ⟨-2147483648, 2147483647, by norm_num, by norm_num⟩

/-- `bsl::uint8`. -/
def u8 : IntTy := ⟨0, 255, by norm_num, by norm_num⟩

/-- `bsl::uint64`. -/
def u64 : IntTy := ⟨0, 18446744073709551615, by norm_num, by norm_num⟩

/-- Reduction of an arbitrary integer into the range of `T`, two's complement
style: this is the value a fixed-width register holds after wrap-around. -/
def wrap (ty : IntTy) (v : Int) : Int := ty.lo + (v - ty.lo) % ty.span

/-- `bsl::builtin_add_overflow` (the non-PERFORCE branch, i.e. GCC/Clang
`__builtin_add_overflow`): first component is the overflow flag, second is the
value stored through `res` (the wrapped result). -/
def builtin_add_overflow (ty : IntTy) (lhs rhs : Int) : Bool × Int :=
  (decide (lhs + rhs < ty.lo) || decide (ty.hi < lhs + rhs), wrap ty (lhs + rhs))

/-- `bsl::builtin_sub_overflow`. -/
def builtin_sub_overflow (ty : IntTy) (lhs rhs : Int) : Bool × Int :=
  (decide (lhs - rhs < ty.lo) || decide (ty.hi < lhs - rhs), wrap ty (lhs - rhs))

/-- `bsl::builtin_mul_overflow`. -/
def builtin_mul_overflow (ty : IntTy) (lhs rhs : Int) : Bool × Int :=
  (decide (lhs * rhs < ty.lo) || decide (ty.hi < lhs * rhs), wrap ty (lhs * rhs))

/-- `bsl::safe_integral<T>`: the stored value `m_val` and the sticky error
flag `m_error`. -/
structure safe_integral where
  m_val : Int
  m_error : Bool
deriving DecidableEq

namespace safe_integral

/-- `safe_integral(U val)`: `m_val{val}, m_error{}`. -/
def ofRaw (v : Int) : safe_integral := ⟨v, false⟩

/-- `safe_integral(U val, bool err)`: `m_val{val}, m_error{err}`. -/
def ofRawErr (v : Int) (err : Bool) : safe_integral := ⟨v, err⟩

/-- `operator=(U val)`: assigns `m_val = val` and clears `m_error`. -/
def assign (_s : safe_integral) (v : Int) : safe_integral := ⟨v, false⟩

/-- A default-constructed instance living in zero-initialized storage (the
defaulted constructor is trivial; BSS / value-initialization provides the
all-zero bit pattern). -/
def zeroInit : safe_integral := ⟨0, false⟩

/-- `get()`: 0 when an error has occurred, else `m_val`. -/
def get (s : safe_integral) : Int := if s.m_error then 0 else s.m_val

/-- `failure()`. -/
def failure (s : safe_integral) : Bool := s.m_error

/-- `set_failure()`. -/
def set_failure (s : safe_integral) : safe_integral := ⟨s.m_val, true⟩

/-- `operator bool()`: `!m_error`. -/
def toBool (s : safe_integral) : Bool := !s.m_error

/-- `zero(err)`: `safe_integral{0, err}`. -/
def zero (err : Bool) : safe_integral := ⟨0, err⟩

/-- `one(err)`: `safe_integral{1, err}`. -/
def one (err : Bool) : safe_integral := ⟨1, err⟩

/-- The copy made by the free binary operators (`safe_integral<T> tmp{lhs}`). -/
def copy (s : safe_integral) : safe_integral := ⟨s.m_val, s.m_error⟩

end safe_integral

open safe_integral

/-- `operator==(safe_integral, safe_integral)`:
`(lhs.get() == rhs.get()) && !lhs.failure() && !rhs.failure()`. -/
def op_eq (lhs rhs : safe_integral) : Bool :=
  decide (lhs.get = rhs.get) && (!lhs.failure) && (!rhs.failure)

/-- `operator==(safe_integral, T)`. -/
def op_eq_raw (lhs : safe_integral) (rhs : Int) : Bool :=
  decide (lhs.get = rhs) && (!lhs.failure)

/-- `operator==(T, safe_integral)`. -/
def raw_op_eq (lhs : Int) (rhs : safe_integral) : Bool :=
  decide (lhs = rhs.get) && (!rhs.failure)

/-- `operator!=(safe_integral, safe_integral)`: `!(lhs == rhs)`. -/
def op_ne (lhs rhs : safe_integral) : Bool := !(op_eq lhs rhs)

/-- `operator!=(safe_integral, T)`. -/
def op_ne_raw (lhs : safe_integral) (rhs : Int) : Bool := !(op_eq_raw lhs rhs)

/-- `operator!=(T, safe_integral)`. -/
def raw_op_ne (lhs : Int) (rhs : safe_integral) : Bool := !(raw_op_eq lhs rhs)

/-- `operator<(safe_integral, safe_integral)`. -/
def op_lt (lhs rhs : safe_integral) : Bool :=
  decide (lhs.get < rhs.get) && (!lhs.failure) && (!rhs.failure)

/-- `operator<=(safe_integral, safe_integral)`. -/
def op_le (lhs rhs : safe_integral) : Bool :=
  decide (lhs.get ≤ rhs.get) && (!lhs.failure) && (!rhs.failure)

/-- `operator>(safe_integral, safe_integral)`. -/
def op_gt (lhs rhs : safe_integral) : Bool :=
  decide (lhs.get > rhs.get) && (!lhs.failure) && (!rhs.failure)

/-- `operator>=(safe_integral, safe_integral)`. -/
def op_ge (lhs rhs : safe_integral) : Bool :=
  decide (lhs.get ≥ rhs.get) && (!lhs.failure) && (!rhs.failure)

/-- `is_zero()`: true when `m_error`, else `zero().get() == m_val`. -/
def is_zero (s : safe_integral) : Bool :=
  if s.m_error then true else decide ((zero false).get = s.m_val)

/-- `is_max()`: `max() == *this`, via `operator==(T, safe_integral)`. -/
def is_max (ty : IntTy) (s : safe_integral) : Bool := raw_op_eq ty.hi s

/-- `is_min()`: `min() == *this`, via `operator==(T, safe_integral)`. -/
def is_min (ty : IntTy) (s : safe_integral) : Bool := raw_op_eq ty.lo s

/-- `operator+=(safe_integral)`:
`err = builtin_add_overflow(m_val, rhs.m_val, &m_val); m_error = m_error || (err || rhs.failure())`. -/
def add_assign (ty : IntTy) (lhs rhs : safe_integral) : safe_integral :=
  let r := builtin_add_overflow ty lhs.m_val rhs.m_val
  ⟨r.2, lhs.m_error || (r.1 || rhs.failure)⟩

/-- `operator+=(U)`: same, but `m_error = m_error || err`. -/
def add_assign_raw (ty : IntTy) (lhs : safe_integral) (rhs : Int) : safe_integral :=
  let r := builtin_add_overflow ty lhs.m_val rhs
  ⟨r.2, lhs.m_error || r.1⟩

/-- `operator-=(safe_integral)`. -/
def sub_assign (ty : IntTy) (lhs rhs : safe_integral) : safe_integral :=
  let r := builtin_sub_overflow ty lhs.m_val rhs.m_val
  ⟨r.2, lhs.m_error || (r.1 || rhs.failure)⟩

/-- `operator-=(U)`. -/
def sub_assign_raw (ty : IntTy) (lhs : safe_integral) (rhs : Int) : safe_integral :=
  let r := builtin_sub_overflow ty lhs.m_val rhs
  ⟨r.2, lhs.m_error || r.1⟩

/-- `operator*=(safe_integral)`. -/
def mul_assign (ty : IntTy) (lhs rhs : safe_integral) : safe_integral :=
  let r := builtin_mul_overflow ty lhs.m_val rhs.m_val
  ⟨r.2, lhs.m_error || (r.1 || rhs.failure)⟩

/-- `operator*=(U)`. -/
def mul_assign_raw (ty : IntTy) (lhs : safe_integral) (rhs : Int) : safe_integral :=
  let r := builtin_mul_overflow ty lhs.m_val rhs
  ⟨r.2, lhs.m_error || r.1⟩

/-- `operator++()`: `builtin_add_overflow(m_val, one().get(), &m_val)`. -/
def inc (ty : IntTy) (lhs : safe_integral) : safe_integral :=
  let r := builtin_add_overflow ty lhs.m_val (one false).get
  ⟨r.2, lhs.m_error || r.1⟩

/-- `operator--()`: `builtin_sub_overflow(m_val, one().get(), &m_val)`. -/
def dec (ty : IntTy) (lhs : safe_integral) : safe_integral :=
  let r := builtin_sub_overflow ty lhs.m_val (one false).get
  ⟨r.2, lhs.m_error || r.1⟩

/-- Free `operator-(safe_integral)` (unary, signed only): `zero() - rhs`,
i.e. copy-of-zero then `operator-=`. -/
def op_neg (ty : IntTy) (rhs : safe_integral) : safe_integral :=
  sub_assign ty (copy (zero false)) rhs

/-- `operator/=(safe_integral)`: poison without dividing when either operand
failed, the divisor is zero, or (signed only) `min() == m_val && -one() == rhs`;
otherwise `m_val /= rhs.m_val` (C++ division truncates toward zero). -/
def div_assign (ty : IntTy) (lhs rhs : safe_integral) : safe_integral :=
  if lhs.failure || rhs.failure then ⟨lhs.m_val, true⟩
  else if op_eq (zero false) rhs then ⟨lhs.m_val, true⟩
  else if ty.isSigned && decide (ty.lo = lhs.m_val) && op_eq (op_neg ty (one false)) rhs then
    ⟨lhs.m_val, true⟩
  else ⟨lhs.m_val.tdiv rhs.m_val, lhs.m_error⟩

/-- `operator/=(U)`: `*this /= safe_integral{rhs}`. -/
def div_assign_raw (ty : IntTy) (lhs : safe_integral) (rhs : Int) : safe_integral :=
  div_assign ty lhs (ofRaw rhs)

/-- `operator%=(safe_integral)`: like division, but the signed edge test is
`min() == m_val && -one() == rhs.m_val` (mixed `operator==(safe_integral, T)`),
and the update is `m_val %= rhs.m_val` (C++ remainder, truncated). -/
def mod_assign (ty : IntTy) (lhs rhs : safe_integral) : safe_integral :=
  if lhs.failure || rhs.failure then ⟨lhs.m_val, true⟩
  else if op_eq (zero false) rhs then ⟨lhs.m_val, true⟩
  else if ty.isSigned && decide (ty.lo = lhs.m_val) && op_eq_raw (op_neg ty (one false)) rhs.m_val then
    ⟨lhs.m_val, true⟩
  else ⟨lhs.m_val.tmod rhs.m_val, lhs.m_error⟩

/-- `operator%=(U)`: `*this %= safe_integral{rhs}`. -/
def mod_assign_raw (ty : IntTy) (lhs : safe_integral) (rhs : Int) : safe_integral :=
  mod_assign ty lhs (ofRaw rhs)

/-- Free `operator+(safe_integral, safe_integral)`: `tmp{lhs}; tmp += rhs`. -/
def op_add (ty : IntTy) (lhs rhs : safe_integral) : safe_integral :=
  add_assign ty (copy lhs) rhs

/-- Free `operator+(safe_integral, T)`: `lhs + safe_integral{rhs}`. -/
def op_add_raw (ty : IntTy) (lhs : safe_integral) (rhs : Int) : safe_integral :=
  op_add ty lhs (ofRaw rhs)

/-- Free `operator+(T, safe_integral)`: `safe_integral{lhs} + rhs`. -/
def raw_op_add (ty : IntTy) (lhs : Int) (rhs : safe_integral) : safe_integral :=
  op_add ty (ofRaw lhs) rhs

/-- Free `operator-(safe_integral, safe_integral)`. -/
def op_sub (ty : IntTy) (lhs rhs : safe_integral) : safe_integral :=
  sub_assign ty (copy lhs) rhs

/-- Free `operator-(safe_integral, T)`. -/
def op_sub_raw (ty : IntTy) (lhs : safe_integral) (rhs : Int) : safe_integral :=
  op_sub ty lhs (ofRaw rhs)

/-- Free `operator-(T, safe_integral)`. -/
def raw_op_sub (ty : IntTy) (lhs : Int) (rhs : safe_integral) : safe_integral :=
  op_sub ty (ofRaw lhs) rhs

/-- Free `operator*(safe_integral, safe_integral)`. -/
def op_mul (ty : IntTy) (lhs rhs : safe_integral) : safe_integral :=
  mul_assign ty (copy lhs) rhs

/-- Free `operator*(safe_integral, T)`. -/
def op_mul_raw (ty : IntTy) (lhs : safe_integral) (rhs : Int) : safe_integral :=
  op_mul ty lhs (ofRaw rhs)

/-- Free `operator*(T, safe_integral)`. -/
def raw_op_mul (ty : IntTy) (lhs : Int) (rhs : safe_integral) : safe_integral :=
  op_mul ty (ofRaw lhs) rhs

/-- Free `operator/(safe_integral, safe_integral)`: `tmp{lhs}; tmp /= rhs`. -/
def op_div (ty : IntTy) (lhs rhs : safe_integral) : safe_integral :=
  div_assign ty (copy lhs) rhs

/-- Free `operator/(safe_integral, T)`. -/
def op_div_raw (ty : IntTy) (lhs : safe_integral) (rhs : Int) : safe_integral :=
  op_div ty lhs (ofRaw rhs)

/-- Free `operator/(T, safe_integral)`. -/
def raw_op_div (ty : IntTy) (lhs : Int) (rhs : safe_integral) : safe_integral :=
  op_div ty (ofRaw lhs) rhs

/-- Free `operator%(safe_integral, safe_integral)`. -/
def op_mod (ty : IntTy) (lhs rhs : safe_integral) : safe_integral :=
  mod_assign ty (copy lhs) rhs

/-- Free `operator%(safe_integral, T)`. -/
def op_mod_raw (ty : IntTy) (lhs : safe_integral) (rhs : Int) : safe_integral :=
  op_mod ty lhs (ofRaw rhs)

/-- Free `operator%(T, safe_integral)`. -/
def raw_op_mod (ty : IntTy) (lhs : Int) (rhs : safe_integral) : safe_integral :=
  op_mod ty (ofRaw lhs) rhs

/-- `operator<<=(safe_integral, U)` (unsigned only):
`tmp = lhs.get(); tmp <<= bits; lhs = safe_integral{tmp, lhs.failure()}`.
The unsigned shift wraps modulo `2^w = span`. -/
def shl_assign (ty : IntTy) (lhs : safe_integral) (bits : Nat) : safe_integral :=
  ⟨Int.ofNat ((lhs.get.toNat <<< bits) % ty.span.toNat), lhs.failure⟩

/-- `operator>>=(safe_integral, U)` (unsigned only). -/
def shr_assign (lhs : safe_integral) (bits : Nat) : safe_integral :=
  ⟨Int.ofNat (lhs.get.toNat >>> bits), lhs.failure⟩

/-- `operator&=(safe_integral, safe_integral)` (unsigned only):
`tmp = lhs.get(); tmp &= rhs.get(); lhs = safe_integral{tmp, lhs.failure() || rhs.failure()}`. -/
def and_assign (lhs rhs : safe_integral) : safe_integral :=
  ⟨Int.ofNat (lhs.get.toNat &&& rhs.get.toNat), lhs.failure || rhs.failure⟩

/-- `operator&=(safe_integral, T)` (unsigned only). -/
def and_assign_raw (lhs : safe_integral) (rhs : Int) : safe_integral :=
  ⟨Int.ofNat (lhs.get.toNat &&& rhs.toNat), lhs.failure⟩

/-- Free `operator&(safe_integral, safe_integral)`: `tmp{lhs}; tmp &= rhs`. -/
def op_and (lhs rhs : safe_integral) : safe_integral := and_assign (copy lhs) rhs

/-- `operator|=(safe_integral, safe_integral)` (unsigned only). -/
def or_assign (lhs rhs : safe_integral) : safe_integral :=
  ⟨Int.ofNat (lhs.get.toNat ||| rhs.get.toNat), lhs.failure || rhs.failure⟩

/-- `operator|=(safe_integral, T)` (unsigned only). -/
def or_assign_raw (lhs : safe_integral) (rhs : Int) : safe_integral :=
  ⟨Int.ofNat (lhs.get.toNat ||| rhs.toNat), lhs.failure⟩

/-- Free `operator|(safe_integral, safe_integral)`. -/
def op_or (lhs rhs : safe_integral) : safe_integral := or_assign (copy lhs) rhs

/-- `operator^=(safe_integral, safe_integral)` (unsigned only). -/
def xor_assign (lhs rhs : safe_integral) : safe_integral :=
  ⟨Int.ofNat (lhs.get.toNat ^^^ rhs.get.toNat), lhs.failure || rhs.failure⟩

/-- `operator^=(safe_integral, T)` (unsigned only). -/
def xor_assign_raw (lhs : safe_integral) (rhs : Int) : safe_integral :=
  ⟨Int.ofNat (lhs.get.toNat ^^^ rhs.toNat), lhs.failure⟩

/-- Free `operator^(safe_integral, safe_integral)`. -/
def op_xor (lhs rhs : safe_integral) : safe_integral := xor_assign (copy lhs) rhs

/-- The result of a guarded division/modulo that was refused: the error flag
is set, the stored value is the untouched dividend (the native division was
not performed), and `get()` reads back `0`. -/
def poisonedUndivided (r a : safe_integral) : Prop :=
  r.m_error = true ∧ r.m_val = a.m_val ∧ r.get = 0

end Bsl

/-- `wrap` is the identity on representable values. -/
theorem Bsl.wrap_eq_self (ty : Bsl.IntTy) (v : Int) (h1 : ty.lo ≤ v) (h2 : v ≤ ty.hi) :
    Bsl.wrap ty v = v := by
  have hmod : (v - ty.lo) % (ty.hi - ty.lo + 1) = v - ty.lo :=
    Int.emod_eq_of_lt (by omega) (by omega)
  simp only [Bsl.wrap, Bsl.IntTy.span, hmod]
  omega

/-- The copy taken by the free binary operators is the operand itself. -/
theorem Bsl.copy_eq (s : Bsl.safe_integral) : s.copy = s := rfl

/-- For a signed type, `-one()` evaluates to the unpoisoned value `-1`. -/
theorem Bsl.op_neg_one_eq (ty : Bsl.IntTy) (h : ty.lo < 0) :
    Bsl.op_neg ty (Bsl.safe_integral.one false) = ⟨-1, false⟩ := by
  have hhi := ty.one_le_hi
  have h1 : ¬((0:Int) - 1 < ty.lo) := by omega
  have h2 : ¬(ty.hi < (0:Int) - 1) := by omega
  simp only [Bsl.op_neg, Bsl.sub_assign, Bsl.builtin_sub_overflow, Bsl.safe_integral.copy,
    Bsl.safe_integral.zero, Bsl.safe_integral.one, Bsl.safe_integral.failure,
    Bsl.safe_integral.mk.injEq]
  refine ⟨?_, ?_⟩
  · show Bsl.wrap ty (0 - 1) = -1
    have := Bsl.wrap_eq_self ty (-1) (by omega) (by omega)
    simpa using this
  · simp
    omega

/-- C1: for every poisoned `safe_integral` instance, regardless of the value
physically stored in `m_val`, `get()` returns `0` and `is_zero()` returns
`true`. -/
theorem c1_poisoned_reads_as_zero (s : Bsl.safe_integral) (h : s.m_error = true) :
    s.get = 0 ∧ Bsl.is_zero s = true := by
  simp [Bsl.safe_integral.get, Bsl.is_zero, h]

/-- C1 witness: the instance `{m_val = 42, m_error = true}`. -/
theorem c1_poisoned_reads_as_zero_witness :
    (Bsl.safe_integral.mk 42 true).get = 0 ∧ Bsl.is_zero (Bsl.safe_integral.mk 42 true) = true :=
  c1_poisoned_reads_as_zero ⟨42, true⟩ rfl

/-- C4: `==`, `<`, `<=`, `>`, `>=` return `false` whenever either side is
poisoned (including both sides poisoned with identical bit patterns), and `!=`
is the negation of `==`, hence returns `true` whenever either side is
poisoned, including a poisoned value compared with itself; the mixed
raw-operand forms behave the same way. -/
theorem c4_comparison_asymmetry (a b : Bsl.safe_integral) (v : Int) :
    (Bsl.op_ne a b = !(Bsl.op_eq a b)) ∧
    (Bsl.op_ne_raw a v = !(Bsl.op_eq_raw a v)) ∧
    (Bsl.raw_op_ne v a = !(Bsl.raw_op_eq v a)) ∧
    (a.m_error = true ∨ b.m_error = true →
      Bsl.op_eq a b = false ∧ Bsl.op_lt a b = false ∧ Bsl.op_le a b = false ∧
      Bsl.op_gt a b = false ∧ Bsl.op_ge a b = false ∧ Bsl.op_ne a b = true) ∧
    (a.m_error = true →
      Bsl.op_eq a a = false ∧ Bsl.op_ne a a = true ∧
      Bsl.op_eq_raw a v = false ∧ Bsl.op_ne_raw a v = true ∧
      Bsl.raw_op_eq v a = false ∧ Bsl.raw_op_ne v a = true) := by
  refine ⟨rfl, rfl, rfl, fun h => ?_, fun h => ?_⟩
  · rcases h with h | h <;>
      simp [Bsl.op_eq, Bsl.op_lt, Bsl.op_le, Bsl.op_gt, Bsl.op_ge, Bsl.op_ne,
        Bsl.safe_integral.failure, h]
  · simp [Bsl.op_eq, Bsl.op_ne, Bsl.op_eq_raw, Bsl.op_ne_raw, Bsl.raw_op_eq, Bsl.raw_op_ne,
      Bsl.safe_integral.failure, h]

/-- C4 witness: a poisoned value compared with an identically-stored poisoned
value, and with itself. -/
theorem c4_comparison_asymmetry_witness :
    Bsl.op_eq (Bsl.safe_integral.mk 7 true) (Bsl.safe_integral.mk 7 true) = false ∧
    Bsl.op_lt (Bsl.safe_integral.mk 7 true) (Bsl.safe_integral.mk 7 true) = false ∧
    Bsl.op_le (Bsl.safe_integral.mk 7 true) (Bsl.safe_integral.mk 7 true) = false ∧
    Bsl.op_gt (Bsl.safe_integral.mk 7 true) (Bsl.safe_integral.mk 7 true) = false ∧
    Bsl.op_ge (Bsl.safe_integral.mk 7 true) (Bsl.safe_integral.mk 7 true) = false ∧
    Bsl.op_ne (Bsl.safe_integral.mk 7 true) (Bsl.safe_integral.mk 7 true) = true :=
  (c4_comparison_asymmetry ⟨7, true⟩ ⟨7, true⟩ 0).2.2.2.1 (Or.inl rfl)

/-- C6: constructing a `safe_integral` from any representable raw value `v`
yields an unpoisoned instance whose `get()` returns exactly `v`. -/
theorem c6_round_trip (ty : Bsl.IntTy) (v : Int) (_h : ty.inRange v) :
    (Bsl.safe_integral.ofRaw v).get = v ∧ (Bsl.safe_integral.ofRaw v).failure = false := by
  simp [Bsl.safe_integral.ofRaw, Bsl.safe_integral.get, Bsl.safe_integral.failure]

/-- C6 witness: `v = 5` in `int8`. -/
theorem c6_round_trip_witness :
    (Bsl.safe_integral.ofRaw 5).get = 5 ∧ (Bsl.safe_integral.ofRaw 5).failure = false :=
  c6_round_trip Bsl.i8 5 (by constructor <;> norm_num [Bsl.i8])

/-- C9: the default-constructed (zero-initialized) instance has value `0` and
a cleared poison flag; reading it through `get()` yields `0`. -/
theorem c9_default_zero :
    Bsl.safe_integral.zeroInit.m_val = 0 ∧ Bsl.safe_integral.zeroInit.m_error = false ∧
    Bsl.safe_integral.zeroInit.get = 0 :=
  ⟨rfl, rfl, rfl⟩

/-- C10: for every poisoned instance, `is_min()` and `is_max()` both return
`false`, even when the stored value equals the type's minimum or maximum. -/
theorem c10_poisoned_not_min_max (ty : Bsl.IntTy) (s : Bsl.safe_integral)
    (h : s.m_error = true) :
    Bsl.is_min ty s = false ∧ Bsl.is_max ty s = false := by
  simp [Bsl.is_min, Bsl.is_max, Bsl.raw_op_eq, Bsl.safe_integral.failure, h]

/-- C10 witness: a poisoned `int8` instance physically storing `127`, the
type's maximum. -/
theorem c10_poisoned_not_min_max_witness :
    Bsl.is_min Bsl.i8 (Bsl.safe_integral.mk 127 true) = false ∧
    Bsl.is_max Bsl.i8 (Bsl.safe_integral.mk 127 true) = false :=
  c10_poisoned_not_min_max Bsl.i8 ⟨127, true⟩ rfl

/-- C7: each bitwise operation on unsigned instantiations produces a result
whose poison flag is exactly the OR of the operands' poison flags, independent
of the operands' bit values, and the bit-pattern operation is always performed
on the effective (`get()`) values. -/
theorem c7_bitwise_poison_or (a b : Bsl.safe_integral) :
    ((Bsl.op_and a b).m_error = (a.m_error || b.m_error)) ∧
    ((Bsl.op_or a b).m_error = (a.m_error || b.m_error)) ∧
    ((Bsl.op_xor a b).m_error = (a.m_error || b.m_error)) ∧
    ((Bsl.op_and a b).m_val = Int.ofNat (a.get.toNat &&& b.get.toNat)) ∧
    ((Bsl.op_or a b).m_val = Int.ofNat (a.get.toNat ||| b.get.toNat)) ∧
    ((Bsl.op_xor a b).m_val = Int.ofNat (a.get.toNat ^^^ b.get.toNat)) :=
  ⟨rfl, rfl, rfl, rfl, rfl, rfl⟩

/-- C8: every binary free-function arithmetic operator (`a op b`, `a op rawB`,
`rawA op b` for `+`, `-`, `*`, `/`, `%`) equals the copy of the left operand
compound-assigned with the right operand; raw operands enter through the
converting constructor.  (Operands are values in this embedding, so neither
input is mutated.) -/
theorem c8_free_ops_copy_compound (ty : Bsl.IntTy) (a b : Bsl.safe_integral) (v : Int) :
    (Bsl.op_add ty a b = Bsl.add_assign ty a b) ∧
    (Bsl.op_add_raw ty a v = Bsl.add_assign ty a (Bsl.safe_integral.ofRaw v)) ∧
    (Bsl.raw_op_add ty v b = Bsl.add_assign ty (Bsl.safe_integral.ofRaw v) b) ∧
    (Bsl.op_sub ty a b = Bsl.sub_assign ty a b) ∧
    (Bsl.op_sub_raw ty a v = Bsl.sub_assign ty a (Bsl.safe_integral.ofRaw v)) ∧
    (Bsl.raw_op_sub ty v b = Bsl.sub_assign ty (Bsl.safe_integral.ofRaw v) b) ∧
    (Bsl.op_mul ty a b = Bsl.mul_assign ty a b) ∧
    (Bsl.op_mul_raw ty a v = Bsl.mul_assign ty a (Bsl.safe_integral.ofRaw v)) ∧
    (Bsl.raw_op_mul ty v b = Bsl.mul_assign ty (Bsl.safe_integral.ofRaw v) b) ∧
    (Bsl.op_div ty a b = Bsl.div_assign ty a b) ∧
    (Bsl.op_div_raw ty a v = Bsl.div_assign ty a (Bsl.safe_integral.ofRaw v)) ∧
    (Bsl.raw_op_div ty v b = Bsl.div_assign ty (Bsl.safe_integral.ofRaw v) b) ∧
    (Bsl.op_mod ty a b = Bsl.mod_assign ty a b) ∧
    (Bsl.op_mod_raw ty a v = Bsl.mod_assign ty a (Bsl.safe_integral.ofRaw v)) ∧
    (Bsl.raw_op_mod ty v b = Bsl.mod_assign ty (Bsl.safe_integral.ofRaw v) b) :=
  ⟨rfl, rfl, rfl, rfl, rfl, rfl, rfl, rfl, rfl, rfl, rfl, rfl, rfl, rfl, rfl⟩

/-- C2: every arithmetic operator propagates poison from either operand
(`a` poisoned here; the symmetric operand position is covered by the `b a`
conjuncts), no arithmetic, bitwise or shift mutation clears an already-set
poison flag, and re-assignment from a raw `T` yields a cleared flag. -/
theorem c2_poison_monotone (ty : Bsl.IntTy) (a b : Bsl.safe_integral) (v : Int) (bits : Nat)
    (h : a.m_error = true) :
    (Bsl.op_add ty a b).m_error = true ∧ (Bsl.op_add ty b a).m_error = true ∧
    (Bsl.op_sub ty a b).m_error = true ∧ (Bsl.op_sub ty b a).m_error = true ∧
    (Bsl.op_mul ty a b).m_error = true ∧ (Bsl.op_mul ty b a).m_error = true ∧
    (Bsl.op_div ty a b).m_error = true ∧ (Bsl.op_div ty b a).m_error = true ∧
    (Bsl.op_mod ty a b).m_error = true ∧ (Bsl.op_mod ty b a).m_error = true ∧
    (Bsl.add_assign ty a b).m_error = true ∧ (Bsl.add_assign ty b a).m_error = true ∧
    (Bsl.sub_assign ty a b).m_error = true ∧ (Bsl.sub_assign ty b a).m_error = true ∧
    (Bsl.mul_assign ty a b).m_error = true ∧ (Bsl.mul_assign ty b a).m_error = true ∧
    (Bsl.div_assign ty a b).m_error = true ∧ (Bsl.div_assign ty b a).m_error = true ∧
    (Bsl.mod_assign ty a b).m_error = true ∧ (Bsl.mod_assign ty b a).m_error = true ∧
    (Bsl.add_assign_raw ty a v).m_error = true ∧
    (Bsl.sub_assign_raw ty a v).m_error = true ∧
    (Bsl.mul_assign_raw ty a v).m_error = true ∧
    (Bsl.div_assign_raw ty a v).m_error = true ∧
    (Bsl.mod_assign_raw ty a v).m_error = true ∧
    (Bsl.inc ty a).m_error = true ∧ (Bsl.dec ty a).m_error = true ∧
    (Bsl.and_assign a b).m_error = true ∧ (Bsl.and_assign b a).m_error = true ∧
    (Bsl.or_assign a b).m_error = true ∧ (Bsl.or_assign b a).m_error = true ∧
    (Bsl.xor_assign a b).m_error = true ∧ (Bsl.xor_assign b a).m_error = true ∧
    (Bsl.and_assign_raw a v).m_error = true ∧
    (Bsl.or_assign_raw a v).m_error = true ∧
    (Bsl.xor_assign_raw a v).m_error = true ∧
    (Bsl.shl_assign ty a bits).m_error = true ∧
    (Bsl.shr_assign a bits).m_error = true ∧
    (Bsl.safe_integral.assign b v).m_error = false := by
  simp [Bsl.op_add, Bsl.op_sub, Bsl.op_mul, Bsl.op_div, Bsl.op_mod,
    Bsl.add_assign, Bsl.sub_assign, Bsl.mul_assign, Bsl.div_assign, Bsl.mod_assign,
    Bsl.add_assign_raw, Bsl.sub_assign_raw, Bsl.mul_assign_raw,
    Bsl.div_assign_raw, Bsl.mod_assign_raw, Bsl.inc, Bsl.dec,
    Bsl.and_assign, Bsl.or_assign, Bsl.xor_assign,
    Bsl.and_assign_raw, Bsl.or_assign_raw, Bsl.xor_assign_raw,
    Bsl.shl_assign, Bsl.shr_assign, Bsl.safe_integral.assign,
    Bsl.safe_integral.copy, Bsl.safe_integral.failure, Bsl.safe_integral.ofRaw, h]

/-- C2 witness: `a = {3, poisoned}`, `b = {5, ok}` over `uint8`. -/
theorem c2_poison_monotone_witness :
    (Bsl.op_add Bsl.u8 (Bsl.safe_integral.mk 3 true) (Bsl.safe_integral.mk 5 false)).m_error
      = true :=
  (c2_poison_monotone Bsl.u8 ⟨3, true⟩ ⟨5, false⟩ 2 1 rfl).1

/-- C5: on unpoisoned operands, addition, subtraction and multiplication
poison the result exactly when the mathematical result falls outside the
type's representable range; in particular for `int8`, `127 + 1` is poisoned,
`127 + 0` is not, and `-128 - 1` is poisoned. -/
theorem c5_overflow_exact (ty : Bsl.IntTy) (a b : Bsl.safe_integral)
    (ha : a.m_error = false) (hb : b.m_error = false) :
    ((Bsl.op_add ty a b).m_error = true ↔
      (a.m_val + b.m_val < ty.lo ∨ ty.hi < a.m_val + b.m_val)) ∧
    ((Bsl.op_sub ty a b).m_error = true ↔
      (a.m_val - b.m_val < ty.lo ∨ ty.hi < a.m_val - b.m_val)) ∧
    ((Bsl.op_mul ty a b).m_error = true ↔
      (a.m_val * b.m_val < ty.lo ∨ ty.hi < a.m_val * b.m_val)) ∧
    (Bsl.op_add Bsl.i8 (Bsl.safe_integral.ofRaw 127) (Bsl.safe_integral.ofRaw 1)).m_error
      = true ∧
    (Bsl.op_add Bsl.i8 (Bsl.safe_integral.ofRaw 127) (Bsl.safe_integral.ofRaw 0)).m_error
      = false ∧
    (Bsl.op_sub Bsl.i8 (Bsl.safe_integral.ofRaw (-128)) (Bsl.safe_integral.ofRaw 1)).m_error
      = true := by
  refine ⟨?_, ?_, ?_, by decide, by decide, by decide⟩ <;>
    simp [Bsl.op_add, Bsl.op_sub, Bsl.op_mul, Bsl.add_assign, Bsl.sub_assign, Bsl.mul_assign,
      Bsl.builtin_add_overflow, Bsl.builtin_sub_overflow, Bsl.builtin_mul_overflow,
      Bsl.safe_integral.copy, Bsl.safe_integral.failure, ha, hb]

/-- C5 witness: `100 + 27` in `int8` (no overflow on either side of the
equivalence). -/
theorem c5_overflow_exact_witness :
    (Bsl.op_add Bsl.i8 (Bsl.safe_integral.ofRaw 100) (Bsl.safe_integral.ofRaw 27)).m_error
        = true ↔
      ((Bsl.safe_integral.ofRaw 100).m_val + (Bsl.safe_integral.ofRaw 27).m_val < Bsl.i8.lo ∨
        Bsl.i8.hi < (Bsl.safe_integral.ofRaw 100).m_val + (Bsl.safe_integral.ofRaw 27).m_val) :=
  (c5_overflow_exact Bsl.i8 (Bsl.safe_integral.ofRaw 100) (Bsl.safe_integral.ofRaw 27)
    rfl rfl).1

/-- C3: division and modulo (compound and free forms) poison the result and do
not perform the native division — the stored value stays the dividend's and
`get()` reads `0` — when (a) either operand is already poisoned, (b) the
divisor's value is zero, or (c) the type is signed and the dividend equals the
type's minimum while the divisor equals `-1`. -/
theorem c3_div_mod_guards (ty : Bsl.IntTy) (a b : Bsl.safe_integral) :
    (a.m_error = true ∨ b.m_error = true →
      Bsl.poisonedUndivided (Bsl.div_assign ty a b) a ∧
      Bsl.poisonedUndivided (Bsl.mod_assign ty a b) a ∧
      Bsl.poisonedUndivided (Bsl.op_div ty a b) a ∧
      Bsl.poisonedUndivided (Bsl.op_mod ty a b) a) ∧
    (a.m_error = false → b.m_error = false → b.m_val = 0 →
      Bsl.poisonedUndivided (Bsl.div_assign ty a b) a ∧
      Bsl.poisonedUndivided (Bsl.mod_assign ty a b) a ∧
      Bsl.poisonedUndivided (Bsl.op_div ty a b) a ∧
      Bsl.poisonedUndivided (Bsl.op_mod ty a b) a) ∧
    (ty.lo < 0 → a.m_error = false → b.m_error = false → a.m_val = ty.lo → b.m_val = -1 →
      Bsl.poisonedUndivided (Bsl.div_assign ty a b) a ∧
      Bsl.poisonedUndivided (Bsl.mod_assign ty a b) a ∧
      Bsl.poisonedUndivided (Bsl.op_div ty a b) a ∧
      Bsl.poisonedUndivided (Bsl.op_mod ty a b) a) := by
  have hod : Bsl.op_div ty a b = Bsl.div_assign ty a b := rfl
  have hom : Bsl.op_mod ty a b = Bsl.mod_assign ty a b := rfl
  refine ⟨fun h => ?_, fun ha hb h0 => ?_, fun hsign ha hb hmin hm1 => ?_⟩
  · have hc1 : (a.failure || b.failure) = true := by
      rcases h with h | h <;> simp [Bsl.safe_integral.failure, h]
    have hdiv : Bsl.div_assign ty a b = ⟨a.m_val, true⟩ := by
      simp only [Bsl.div_assign, hc1]
      simp
    have hmod : Bsl.mod_assign ty a b = ⟨a.m_val, true⟩ := by
      simp only [Bsl.mod_assign, hc1]
      simp
    rw [hod, hom, hdiv, hmod]
    exact ⟨⟨rfl, rfl, rfl⟩, ⟨rfl, rfl, rfl⟩, ⟨rfl, rfl, rfl⟩, ⟨rfl, rfl, rfl⟩⟩
  · have hc1 : (a.failure || b.failure) = false := by
      simp [Bsl.safe_integral.failure, ha, hb]
    have hc2 : Bsl.op_eq (Bsl.safe_integral.zero false) b = true := by
      simp [Bsl.op_eq, Bsl.safe_integral.zero, Bsl.safe_integral.get,
        Bsl.safe_integral.failure, hb, h0]
    have hdiv : Bsl.div_assign ty a b = ⟨a.m_val, true⟩ := by
      simp only [Bsl.div_assign, hc1, hc2]
      simp
    have hmod : Bsl.mod_assign ty a b = ⟨a.m_val, true⟩ := by
      simp only [Bsl.mod_assign, hc1, hc2]
      simp
    rw [hod, hom, hdiv, hmod]
    exact ⟨⟨rfl, rfl, rfl⟩, ⟨rfl, rfl, rfl⟩, ⟨rfl, rfl, rfl⟩, ⟨rfl, rfl, rfl⟩⟩
  · have hc1 : (a.failure || b.failure) = false := by
      simp [Bsl.safe_integral.failure, ha, hb]
    have hc2 : Bsl.op_eq (Bsl.safe_integral.zero false) b = false := by
      simp [Bsl.op_eq, Bsl.safe_integral.zero, Bsl.safe_integral.get,
        Bsl.safe_integral.failure, hb, hm1]
    have hneg := Bsl.op_neg_one_eq ty hsign
    have hc3 : (ty.isSigned && decide (ty.lo = a.m_val) &&
        Bsl.op_eq (Bsl.op_neg ty (Bsl.safe_integral.one false)) b) = true := by
      rw [hneg]
      simp [Bsl.IntTy.isSigned, Bsl.op_eq, Bsl.safe_integral.get, Bsl.safe_integral.failure,
        hsign, hmin, hb, hm1]
    have hc3m : (ty.isSigned && decide (ty.lo = a.m_val) &&
        Bsl.op_eq_raw (Bsl.op_neg ty (Bsl.safe_integral.one false)) b.m_val) = true := by
      rw [hneg]
      simp [Bsl.IntTy.isSigned, Bsl.op_eq_raw, Bsl.safe_integral.get,
        Bsl.safe_integral.failure, hsign, hmin, hm1]
    have hdiv : Bsl.div_assign ty a b = ⟨a.m_val, true⟩ := by
      simp only [Bsl.div_assign, hc1, hc2, hc3]
      simp
    have hmod : Bsl.mod_assign ty a b = ⟨a.m_val, true⟩ := by
      simp only [Bsl.mod_assign, hc1, hc2, hc3m]
      simp
    rw [hod, hom, hdiv, hmod]
    exact ⟨⟨rfl, rfl, rfl⟩, ⟨rfl, rfl, rfl⟩, ⟨rfl, rfl, rfl⟩, ⟨rfl, rfl, rfl⟩⟩

/-- C3 witness: `10 / 0` over `int32` — the divide-by-zero guard fires. -/
theorem c3_div_mod_guards_witness :
    Bsl.poisonedUndivided
      (Bsl.div_assign Bsl.i32 (Bsl.safe_integral.ofRaw 10) (Bsl.safe_integral.ofRaw 0))
      (Bsl.safe_integral.ofRaw 10) :=
  ((c3_div_mod_guards Bsl.i32 (Bsl.safe_integral.ofRaw 10)
      (Bsl.safe_integral.ofRaw 0)).2.1 rfl rfl rfl).1
